import Mathlib

/-
Verification of the terraform-launch front-end core against its source.

The development shallowly embeds the two source files:
  * src/utils/tfgen.go — the TerraformFileConfig entity and its Generate
    method (flag merging, list/map expansion, assembly, formatting), with
    Go slice aliasing between the working line list and the receiver's
    BodyLines modelled explicitly (backing array + capacity + attachment);
  * src/main.go — the command router (help / plugin / passthrough
    classification) and the plugin lifecycle around terraform delegation,
    modelled as a pure routing function and an event trace.

External collaborators (flag.FlagSet, the HCL printer, the sandbox, the
plugins' own hooks) are parameters of the embedded functions.
-/

/-- Go `strings.HasPrefix(needle, hay-leading-part)` on rune lists:
`leadChars n h` is true when `n` is an initial segment of `h`. -/
def leadChars : List Char → List Char → Bool
  | [], _ => true
  | _ :: _, [] => false
  | a :: as, b :: bs => a == b && leadChars as bs

/-- Occurrence of `needle` as a contiguous sub-list of `hay`. -/
def subChars (needle : List Char) : List Char → Bool
  | [] => needle.isEmpty
  | c :: rest => leadChars needle (c :: rest) || subChars needle rest

/-- Go `strings.Contains(hay, needle)`. -/
def strContains (hay needle : String) : Bool :=
  subChars needle.data hay.data

/-- Go `strings.HasPrefix(s, "-")`. -/
def dashLead (s : String) : Bool :=
  match s.data with
  | [] => false
  | c :: _ => c == '-'

/-- Lower-case hexadecimal digit, as used by Go's JSON `\u00xx` escapes. -/
def hexDigit (n : Nat) : Char :=
  if n < 10 then Char.ofNat (48 + n) else Char.ofNat (87 + n)

/-- Per-character escaping of Go's `encoding/json` string encoder
(`json.Marshal` on a string value): quotes and backslashes are
backslash-escaped, newline / carriage-return / tab use two-character
escapes, `<` `>` `&` and other control characters use `\u00xx`, and
U+2028/U+2029 use ` `/` `. -/
def escapeChar (c : Char) : List Char :=
  if c = '"' then ['\\', '"']
  else if c = '\\' then ['\\', '\\']
  else if c = '\n' then ['\\', 'n']
  else if c = '\r' then ['\\', 'r']
  else if c = '\t' then ['\\', 't']
  else if c = '<' ∨ c = '>' ∨ c = '&' then
    ['\\', 'u', '0', '0', hexDigit (c.toNat / 16), hexDigit (c.toNat % 16)]
  else if c.toNat < 32 then
    ['\\', 'u', '0', '0', hexDigit (c.toNat / 16), hexDigit (c.toNat % 16)]
  else if c.toNat = 0x2028 then ['\\', 'u', '2', '0', '2', '8']
  else if c.toNat = 0x2029 then ['\\', 'u', '2', '0', '2', '9']
  else [c]

/-- Escape every character of a rune list. -/
def escapeAll : List Char → List Char
  | [] => []
  | c :: cs => escapeChar c ++ escapeAll cs

/-- Go `string(json.Marshal(s))` for a string `s`: the JSON-quoted form. -/
def jsonQuote (s : String) : String :=
  ⟨'"' :: (escapeAll s.data ++ ['"'])⟩

/-- The scalar assignment line `fmt.Sprintf("%s = %s", name, jsonValue)`
appended by Generate for a scalar flag (src/utils/tfgen.go:140-141). -/
def scalarLine (name value : String) : String :=
  name ++ " = " ++ jsonQuote value

/-- src/utils/tfgen.go:12-22. The `Flags *flag.FlagSet` field is an
external collaborator; the visited (explicitly supplied) flags are passed
to the embedded Generate as an ordered `(name, value)` list instead. -/
structure TerraformFileConfig where
  ListFlags : List String
  MapFlags : List String
  PreLines : List String
  BodyLines : List String
  PostLines : List String
  BodyPrefix : String
deriving DecidableEq

/-- src/utils/tfgen.go:71-78: membership of `name` in `c.ListFlags`. -/
def TerraformFileConfig.IsList (c : TerraformFileConfig) (name : String) : Bool :=
  c.ListFlags.any (fun n => n == name)

/-- src/utils/tfgen.go:80-87: the source's IsMap iterates `c.ListFlags`,
not `c.MapFlags` — embedded exactly as written. -/
def TerraformFileConfig.IsMap (c : TerraformFileConfig) (name : String) : Bool :=
  c.ListFlags.any (fun n => n == name)

/-- Whether the working `lines` slice of Generate still shares its backing
array with the receiver's `BodyLines` (`attached llen` = same backing,
current length `llen`), or a Go `append` has reallocated (`detached`). -/
inductive LinesAlias where
  | attached (llen : Nat)
  | detached (ls : List String)
deriving DecidableEq

/-- State of the `lines := c.BodyLines` working slice
(src/utils/tfgen.go:94): `backing` is the contents of the original
BodyLines backing array (its length is the slice capacity), `bodyLen` the
fixed length of the `c.BodyLines` slice header. -/
structure GenState where
  backing : List String
  bodyLen : Nat
  mode : LinesAlias
deriving DecidableEq

/-- Initial state: `lines` aliases BodyLines; `extraCap` models any spare
capacity the caller's slice had beyond its length (Go guarantees only
cap ≥ len; spare slots start as zero values). -/
def GenState.init (body : List String) (extraCap : Nat) : GenState :=
  ⟨body ++ List.replicate extraCap "", body.length, .attached body.length⟩

/-- The current contents of the working `lines` slice. -/
def GenState.lines (s : GenState) : List String :=
  match s.mode with
  | .attached llen => s.backing.take llen
  | .detached ls => ls

/-- The current contents seen through the receiver's `c.BodyLines` slice
header (length fixed at `bodyLen`, over the original backing array). -/
def GenState.body (s : GenState) : List String :=
  s.backing.take s.bodyLen

/-- src/utils/tfgen.go:104-106: `copy(lines[i:], lines[i+1:])`,
`lines[len(lines)-1] = ""`, `lines = lines[:len(lines)-1]`. While
attached this rewrites the shared backing array in place. -/
def GenState.removeAt (s : GenState) (i : Nat) : GenState :=
  match s.mode with
  | .attached llen =>
      { s with
        backing := ((s.backing.take llen).eraseIdx i ++ [""]) ++ s.backing.drop llen,
        mode := .attached (llen - 1) }
  | .detached ls => { s with mode := .detached (ls.eraseIdx i) }

/-- Go `lines = append(lines, x)`: writes in place while length < capacity,
otherwise reallocates a fresh backing array (detaching from BodyLines). -/
def GenState.appendL (s : GenState) (x : String) : GenState :=
  match s.mode with
  | .attached llen =>
      if llen < s.backing.length then
        { s with backing := s.backing.set llen x, mode := .attached (llen + 1) }
      else
        { s with mode := .detached (s.backing.take llen ++ [x]) }
  | .detached ls => { s with mode := .detached (ls ++ [x]) }

/-- src/utils/tfgen.go:101-109: remove the first line containing the flag
name as a substring, if any. -/
def GenState.removeMatch (s : GenState) (name : String) : GenState :=
  match s.lines.findIdx? (fun l => strContains l name) with
  | some i => s.removeAt i
  | none => s

/-- Go `map[string][]string` accumulation (`listValues`), modelled as an
insertion-ordered association list: append the value to an existing entry
or add a new entry at the end. -/
def pushListValue : List (String × List String) → String → String → List (String × List String)
  | [], n, v => [(n, [v])]
  | (m, vs) :: rest, n, v =>
      if m == n then (m, vs ++ [v]) :: rest else (m, vs) :: pushListValue rest n v

/-- Go map assignment `vals[k] = v` on an insertion-ordered association
list: replace the value at `k` or add the pair at the end. -/
def setAssoc : List (String × String) → String → String → List (String × String)
  | [], k, v => [(k, v)]
  | (a, b) :: r, k, v => if a == k then (k, v) :: r else (a, b) :: setAssoc r k v

/-- Go `map[string]string` update inside `mapValues`: set `k` to `v` in the
entry for flag `n` (dead code in the source; see `visitFlag`). -/
def pushMapValue : List (String × List (String × String)) → String → String → String → List (String × List (String × String))
  | [], n, k, v => [(n, [(k, v)])]
  | (m, kvs) :: rest, n, k, v =>
      if m == n then (m, setAssoc kvs k v) :: rest else (m, kvs) :: pushMapValue rest n k v

/-- Accumulator of the `Flags.Visit` closure (src/utils/tfgen.go:95-98):
the working slice state, `listValues`, `mapValues`, and the collected
`errs` (which the source never reads back). -/
structure VisitAcc where
  s : GenState
  listValues : List (String × List String)
  mapValues : List (String × List (String × String))
  errs : List String
deriving DecidableEq

/-- One iteration of the `Flags.Visit` closure (src/utils/tfgen.go:100-143)
for a supplied flag `(name, value)`. The branch structure is embedded
exactly as written in the source: the second branch re-tests `IsList`
(line 121), so the map-accumulation branch is unreachable. -/
def visitFlag (c : TerraformFileConfig) (acc : VisitAcc) (f : String × String) : VisitAcc :=
  let s := acc.s.removeMatch f.1
  if c.IsList f.1 then
    { acc with s := s, listValues := pushListValue acc.listValues f.1 f.2 }
  else if c.IsList f.1 then
    let kv := f.2.splitOn "="
    let msg := "Could not parse '" ++ f.2 ++ "': Expected key=value format"
    if kv.length < 2 then
      { acc with s := s, errs := acc.errs ++ [msg] }
    else
      { acc with s := s, mapValues := pushMapValue acc.mapValues f.1 (kv.headD "") (kv.getD 1 "") }
  else
    { acc with s := s.appendL (scalarLine f.1 f.2) }

/-- src/utils/tfgen.go:100-143: visit every supplied flag in order. -/
def runVisit (c : TerraformFileConfig) (flags : List (String × String)) (extraCap : Nat) : VisitAcc :=
  flags.foldl (visitFlag c) ⟨GenState.init c.BodyLines extraCap, [], [], []⟩

/-- src/utils/tfgen.go:146-154: expand one accumulated list flag into a
blank line, `name = [`, one indented quoted item per value with a trailing
comma, and a closing `]`. -/
def expandList (s : GenState) (entry : String × List String) : GenState :=
  let s := s.appendL ""
  let s := s.appendL (entry.1 ++ " = [")
  let s := entry.2.foldl (fun s item => s.appendL ("  " ++ jsonQuote item ++ ",")) s
  s.appendL "]"

/-- src/utils/tfgen.go:157-165: expand one accumulated map flag into a
blank line, `name = \x7b`, one `key = "value"` line per entry, and a
closing `\x7d`. -/
def expandMap (s : GenState) (entry : String × List (String × String)) : GenState :=
  let s := s.appendL ""
  let s := s.appendL (entry.1 ++ " = \x7b")
  let s := entry.2.foldl (fun s kv => s.appendL ("  " ++ kv.1 ++ " = " ++ jsonQuote kv.2)) s
  s.appendL "\x7d"

/-- The working slice after flag visiting and list/map expansion
(src/utils/tfgen.go:100-165). -/
def generateState (c : TerraformFileConfig) (flags : List (String × String)) (extraCap : Nat) : GenState :=
  let acc := runVisit c flags extraCap
  let s := acc.listValues.foldl expandList acc.s
  acc.mapValues.foldl expandMap s

/-- The contents of `c.BodyLines` once Generate has finished (the receiver
is mutated through the shared backing array). -/
def finalBody (c : TerraformFileConfig) (flags : List (String × String)) (extraCap : Nat) : List String :=
  (generateState c flags extraCap).body

/-- The merged working lines that Generate appends after the body. -/
def mergedLines (c : TerraformFileConfig) (flags : List (String × String)) (extraCap : Nat) : List String :=
  (generateState c flags extraCap).lines

/-- src/utils/tfgen.go:167-172: `pre ++ BodyLines ++ lines ++ post`,
joined with newlines — note `c.BodyLines` is read here after the visit
loop may have rewritten it through the alias. -/
def assembledText (c : TerraformFileConfig) (flags : List (String × String)) (extraCap : Nat) : String :=
  String.intercalate "\n"
    (c.PreLines ++ finalBody c flags extraCap ++ mergedLines c flags extraCap ++ c.PostLines)

/-- src/utils/tfgen.go:93-179: the Generate method. The external HCL
`printer.Format` collaborator is the `format` parameter; on its failure
the error is wrapped with "Could not format output: ". The `errs`
collected during visiting are dropped, as in the source. -/
def Generate (c : TerraformFileConfig) (flags : List (String × String)) (extraCap : Nat)
    (format : String → Except String String) : Except String String :=
  let acc := runVisit c flags extraCap
  let s := acc.listValues.foldl expandList acc.s
  let s := acc.mapValues.foldl expandMap s
  let allLines := c.PreLines ++ s.body ++ s.lines ++ c.PostLines
  match format (String.intercalate "\n" allLines) with
  | .ok out => .ok out
  | .error e => .error ("Could not format output: " ++ e)

/-- Wrapping applied to the formatter's result (src/utils/tfgen.go:174-177). -/
def wrapFormat : Except String String → Except String String
  | .ok out => .ok out
  | .error e => .error ("Could not format output: " ++ e)

/-- The receiver's state after a Generate call: `BodyLines` holds whatever
the shared backing array now contains under the original slice header. -/
def finalConfig (c : TerraformFileConfig) (flags : List (String × String)) (extraCap : Nat) : TerraformFileConfig :=
  { c with BodyLines := finalBody c flags extraCap }

/-- src/main.go:22 analogue for a plugin-declared command: name,
description, and a handler collaborator (handlers themselves live in the
external plugins package). -/
structure Command where
  name : String
  description : String
deriving DecidableEq

/-- A registered plugin: its identifying name and its ordered command
list, as exposed by GetName/GetCommands. -/
structure Plugin where
  name : String
  commands : List Command
deriving DecidableEq

/-- src/main.go:24-29: the fixed known terraform command allow-list. -/
def knownTerraformCommands : List String :=
  ["apply", "console", "destroy", "env", "fmt", "get", "graph", "import", "init",
   "output", "plan", "providers", "push", "refresh", "show", "taint", "untaint",
   "validate", "version", "workspace", "0.12checklist", "debug", "force-unlock",
   "state"]

/-- Dispatch targets of main (src/main.go:130-279). `metaCmd` covers the
wheels-* early returns, `plugin` carries the owning plugin's name, the
command name and the argument list handed to the handler, `passthrough`
the vector delegated to terraform. -/
inductive Route where
  | metaCmd (name : String)
  | help
  | plugin (pluginName cmdName : String) (handlerArgs : List String)
  | passthrough (args : List String)
deriving DecidableEq

/-- src/main.go:219-231: scan plugins in registration order, and within a
plugin its commands in declared order, for the first command whose name
equals `n`. -/
def findPluginCommand : List Plugin → String → Option (String × String)
  | [], _ => none
  | p :: ps, n =>
    match p.commands.find? (fun c => c.name == n) with
    | some c => some (p.name, c.name)
    | none => findPluginCommand ps n

/-- src/main.go:130-279: the routing decision of main, as a function of
the argument vector `args` = os.Args with argument 0 removed. Mirrors, in
order: the wheels meta-command early returns (132-162), the early help
check on the first argument only (175-178), the any-argument scan for a
known terraform command (190-198), the first non-dash-prefixed argument
as effective command (201-210, all-flags giving help at 213-216), plugin
lookup passing os.Args[2:] = `args.drop 1` to the handler (219-231), and
passthrough of the full vector versus help (257-271). -/
def route (plugins : List Plugin) (args : List String) : Route :=
  match args with
  | [] => .help
  | a1 :: _ =>
    if a1 == "wheels-complete-upgrade" then .metaCmd a1
    else if a1 == "wheels-version" then .metaCmd a1
    else if a1 == "wheels-upgrade" then .metaCmd a1
    else if strContains a1 "help" then .help
    else
      let isTerraformCommand := args.any (fun arg => knownTerraformCommands.any (fun c => c == arg))
      match args.find? (fun a => !(dashLead a)) with
      | none => .help
      | some cmdn =>
        match findPluginCommand plugins cmdn with
        | some pc => .plugin pc.1 pc.2 (args.drop 1)
        | none => if isTerraformCommand then .passthrough args else .help

/-- Items printed by help mode (src/main.go:31-52, 67-82). -/
inductive HelpItem where
  | terraformOwnHelp
  | missingTerraformNotice
  | builtinCommand (name : String)
  | pluginCommand (name description : String)
deriving DecidableEq

/-- The command lines printed for the plugin registry, in registration
order (src/main.go:47-51). -/
def pluginHelpItems : List Plugin → List HelpItem
  | [] => []
  | p :: ps => p.commands.map (fun c => HelpItem.pluginCommand c.name c.description) ++ pluginHelpItems ps

/-- src/main.go:67-82 with 41-52: the help screen — terraform's own help
when available, otherwise the missing-terraform notice, then the built-in
wheels commands, then every plugin command. -/
def helpScreen (hasTerraform : Bool) (plugins : List Plugin) : List HelpItem :=
  (if hasTerraform then [HelpItem.terraformOwnHelp] else [HelpItem.missingTerraformNotice])
    ++ [HelpItem.builtinCommand "wheels-version", HelpItem.builtinCommand "wheels-upgrade"]
    ++ pluginHelpItems plugins

/-- src/main.go:81: the process status after help mode (`os.Exit(1)`). -/
def helpExitCode : Nat := 1

/-- Modelled from the spec: the amended routing condition for help mode,
written from the spec's words for §4.3 as corrected against the source:
after the reserved wheels meta-commands are intercepted, help mode is
taken when the vector is empty, when the FIRST argument contains "help",
when no argument lacks a '-' prefix, or when the effective command name
matches no plugin command and no argument equals a known terraform
command. Used only to compare the source-derived `route` against the
specification. -/
def helpCond (plugins : List Plugin) (args : List String) : Bool :=
  match args with
  | [] => true
  | a1 :: _ =>
    !(a1 == "wheels-complete-upgrade" || a1 == "wheels-version" || a1 == "wheels-upgrade")
      && (strContains a1 "help"
        || match args.find? (fun a => !(dashLead a)) with
           | none => true
           | some cmdn =>
             (findPluginCommand plugins cmdn).isNone
               && !(args.any (fun arg => knownTerraformCommands.any (fun c => c == arg))))

/-- Observable steps of the lifecycle around a terraform delegation
(src/main.go:84-111 and 232-251). `crashed` marks the Go runtime panic of
calling `Error()` on a nil error interface. -/
inductive Event where
  | beforeRun (plugin : String)
  | tfInvoke (args : List String)
  | afterRun (plugin : String)
  | fatal (message : String)
  | crashed
  | handleCmd
  | reloadProject
deriving DecidableEq

/-- One registered-and-active plugin's hook outcomes for a run: `none`
means the hook succeeds, `some e` that it returns error text `e`. -/
structure PluginRun where
  name : String
  beforeErr : Option String
  afterErr : Option String
deriving DecidableEq

/-- Modelled from the spec: `FatalError` (repository code not under src/)
prints its message and terminates the process with a non-zero status, so
an event trace ends at the fatal event it produces. -/
def fatalStop (message : String) : List Event :=
  [Event.fatal message]

/-- src/main.go:93-99: run BeforeRun for each plugin in order; on the
first error, emit the fatal "Could not start" message naming the plugin
and stop. Returns the events and whether all pre-hooks succeeded. -/
def runBeforeHooks : List PluginRun → List Event × Bool
  | [] => ([], true)
  | p :: ps =>
    match p.beforeErr with
    | some e => (Event.beforeRun p.name :: fatalStop ("Could not start " ++ p.name ++ ": " ++ e), false)
    | none =>
      let r := runBeforeHooks ps
      (Event.beforeRun p.name :: r.1, r.2)

/-- src/main.go:104-110: run AfterRun for each plugin in order. On a
post-hook error the source formats `err` — the delegation error — rather
than the post-hook's own error: when delegation failed the fatal message
wraps the delegation error text, and when delegation succeeded (`err` is
nil) the call `err.Error()` is a nil-interface method call, a Go runtime
panic, modelled as `Event.crashed`. -/
def runAfterHooks (invokeErr : Option String) : List PluginRun → List Event
  | [] => []
  | p :: ps =>
    match p.afterErr with
    | some _ =>
      match invokeErr with
      | some ie => Event.afterRun p.name :: fatalStop ("Could not finalize " ++ p.name ++ ": " ++ ie)
      | none => [Event.afterRun p.name, Event.crashed]
    | none => Event.afterRun p.name :: runAfterHooks invokeErr ps

/-- src/main.go:84-111: the invokeTerraform lifecycle — pre-hooks for the
active plugins in order, then the delegation `tf.Invoke(args)` whose
outcome `invokeErr` is not itself fatal, then post-hooks in order. -/
def invokeTerraformTrace (plugins : List PluginRun) (invokeErr : Option String) (args : List String) : List Event :=
  let pre := runBeforeHooks plugins
  if pre.2 then pre.1 ++ [Event.tfInvoke args] ++ runAfterHooks invokeErr plugins
  else pre.1

/-- src/main.go:227-251: the tail of plugin dispatch. The handler runs
(its failure is fatal); then the sandbox is re-queried for terraform
files (`filesAfter`); when the sandbox previously had none and now has
some, the project state is reloaded and the full lifecycle runs once on
the synthetic vector ["init"] with the freshly loaded active plugins. -/
def pluginDispatchTrace (hadFiles filesAfter : Bool) (handlerErr : Option String)
    (active : List PluginRun) (initInvokeErr : Option String) : List Event :=
  Event.handleCmd ::
    match handlerErr with
    | some e => fatalStop e
    | none =>
      if !hadFiles && filesAfter then
        Event.reloadProject :: invokeTerraformTrace active initInvokeErr ["init"]
      else []

/-- Boolean recognizers used to state absence of events in a trace. -/
def Event.isTfInvoke : Event → Bool
  | .tfInvoke _ => true
  | _ => false

/-- Recognizer for post-hook events. -/
def Event.isAfterRun : Event → Bool
  | .afterRun _ => true
  | _ => false

/-- Recognizer for the reload-project event. -/
def Event.isReload : Event → Bool
  | .reloadProject => true
  | _ => false

/-- Go slice invariant: while the working slice is attached, its length
never exceeds the capacity of the shared backing array. -/
def GenState.wf (s : GenState) : Bool :=
  match s.mode with
  | .attached llen => decide (llen ≤ s.backing.length)
  | .detached _ => true

theorem GenState.lines_length_attached {backing : List String} {bodyLen llen : Nat}
    (h : llen ≤ backing.length) :
    (GenState.mk backing bodyLen (.attached llen)).lines.length = llen := by
  simp [GenState.lines, List.length_take, Nat.min_eq_left h]

theorem GenState.lines_removeAt (s : GenState) (i : Nat) (hwf : s.wf = true)
    (h : i < s.lines.length) :
    (s.removeAt i).lines = s.lines.eraseIdx i := by
  rcases s with ⟨backing, bodyLen, mode⟩
  cases mode with
  | detached ls => rfl
  | attached llen =>
    simp only [GenState.wf, decide_eq_true_eq] at hwf
    simp only [GenState.lines, GenState.removeAt] at h ⊢
    rw [List.append_assoc]
    refine List.take_left' ?_
    rw [List.length_eraseIdx_of_lt h]
    simp only [List.length_take] at h ⊢
    omega

theorem GenState.wf_removeAt (s : GenState) (i : Nat) (hwf : s.wf = true) :
    (s.removeAt i).wf = true := by
  rcases s with ⟨backing, bodyLen, mode⟩
  cases mode with
  | detached ls => rfl
  | attached llen =>
    simp only [GenState.wf, decide_eq_true_eq] at hwf
    simp only [GenState.removeAt]
    simp only [GenState.wf, decide_eq_true_eq, List.length_append, List.length_cons,
      List.length_nil]
    have h1 := List.length_eraseIdx (backing.take llen) i
    have h2 : (backing.take llen).length = min llen backing.length := List.length_take llen backing
    rcases Nat.lt_or_ge i (backing.take llen).length with h3 | h3
    · rw [if_pos h3] at h1
      omega
    · rw [if_neg (Nat.not_lt.mpr h3)] at h1
      omega

theorem GenState.lines_appendL (s : GenState) (x : String) (hwf : s.wf = true) :
    (s.appendL x).lines = s.lines ++ [x] := by
  rcases s with ⟨backing, bodyLen, mode⟩
  cases mode with
  | detached ls => rfl
  | attached llen =>
    simp only [GenState.wf, decide_eq_true_eq] at hwf
    simp only [GenState.appendL, GenState.lines]
    by_cases hlt : llen < backing.length
    · rw [if_pos hlt]
      simp only [GenState.lines]
      rw [List.set_eq_take_append_cons_drop, if_pos hlt]
      have hlen : (backing.take llen).length = llen := by
        simp [List.length_take, Nat.min_eq_left hwf]
      calc (backing.take llen ++ x :: backing.drop (llen + 1)).take (llen + 1)
          = (backing.take llen ++ x :: backing.drop (llen + 1)).take ((backing.take llen).length + 1) := by rw [hlen]
        _ = backing.take llen ++ (x :: backing.drop (llen + 1)).take 1 := List.take_append 1
        _ = backing.take llen ++ [x] := by simp
    · rw [if_neg hlt]

theorem GenState.wf_appendL (s : GenState) (x : String) (hwf : s.wf = true) :
    (s.appendL x).wf = true := by
  rcases s with ⟨backing, bodyLen, mode⟩
  cases mode with
  | detached ls => rfl
  | attached llen =>
    simp only [GenState.wf, decide_eq_true_eq] at hwf
    simp only [GenState.appendL]
    by_cases hlt : llen < backing.length
    · rw [if_pos hlt]
      simp only [GenState.wf, List.length_set, decide_eq_true_eq]
      omega
    · rw [if_neg hlt]
      rfl

theorem GenState.lines_removeMatch (s : GenState) (n : String) (hwf : s.wf = true) :
    (s.removeMatch n).lines
      = (match s.lines.findIdx? (fun l => strContains l n) with
         | some i => s.lines.eraseIdx i
         | none => s.lines) := by
  unfold GenState.removeMatch
  cases hfi : s.lines.findIdx? (fun l => strContains l n) with
  | none => rfl
  | some i =>
    have hi : i < s.lines.length := by
      rcases (List.findIdx?_eq_some_iff_getElem.mp hfi) with ⟨h, -, -⟩
      exact h
    exact s.lines_removeAt i hwf hi

theorem GenState.wf_removeMatch (s : GenState) (n : String) (hwf : s.wf = true) :
    (s.removeMatch n).wf = true := by
  unfold GenState.removeMatch
  cases hfi : s.lines.findIdx? (fun l => strContains l n) with
  | none => exact hwf
  | some i => exact s.wf_removeAt i hwf

theorem IsList_eq_false_of_not_mem (c : TerraformFileConfig) (n : String)
    (h : n ∉ c.ListFlags) : c.IsList n = false := by
  simp only [TerraformFileConfig.IsList, List.any_eq_false, beq_iff_eq]
  exact fun m hm hmn => h (hmn ▸ hm)

/-- C1: for any point in any Generate invocation at which an explicitly
supplied scalar flag `f` — one named in neither `listFlags` nor
`mapFlags` — is visited over a well-formed working line list: if no line
contains `f`'s name as a substring, exactly the single new line
`name = <JSON-escaped value>` is appended to the merged body; if some line
contains the name as a substring, only the first such line is removed
(the relative order of the remaining lines being preserved by `eraseIdx`)
and the new line is appended at the end. -/
theorem C1_scalar_flag_merge (c : TerraformFileConfig) (acc : VisitAcc) (n v : String)
    (hwf : acc.s.wf = true) (hl : n ∉ c.ListFlags) (_hm : n ∉ c.MapFlags) :
    (acc.s.lines.findIdx? (fun l => strContains l n) = none →
        (visitFlag c acc (n, v)).s.lines = acc.s.lines ++ [scalarLine n v])
    ∧ (∀ i, acc.s.lines.findIdx? (fun l => strContains l n) = some i →
        (visitFlag c acc (n, v)).s.lines = acc.s.lines.eraseIdx i ++ [scalarLine n v]) := by
  have hlist : c.IsList n = false := IsList_eq_false_of_not_mem c n hl
  have hvf : (visitFlag c acc (n, v)).s = (acc.s.removeMatch n).appendL (scalarLine n v) := by
    simp [visitFlag, hlist]
  constructor
  · intro hnone
    rw [hvf, GenState.lines_appendL _ _ (acc.s.wf_removeMatch n hwf),
      GenState.lines_removeMatch _ _ hwf, hnone]
  · intro i hsome
    rw [hvf, GenState.lines_appendL _ _ (acc.s.wf_removeMatch n hwf),
      GenState.lines_removeMatch _ _ hwf, hsome]

/-- Witness for C1 at a concrete invocation: body `["foo = 1"]`, flag
`bar` with value `2` (no line matches, so the line `bar = "2"` is
appended). -/
theorem C1_scalar_flag_merge_witness :
    (visitFlag ⟨[], [], [], ["foo = 1"], [], ""⟩ ⟨GenState.init ["foo = 1"] 0, [], [], []⟩ ("bar", "2")).s.lines
      = (VisitAcc.mk (GenState.init ["foo = 1"] 0) [] [] []).s.lines ++ [scalarLine "bar" "2"] :=
  (C1_scalar_flag_merge ⟨[], [], [], ["foo = 1"], [], ""⟩ ⟨GenState.init ["foo = 1"] 0, [], [], []⟩
    "bar" "2" (by decide) (by decide) (by decide)).1 (by decide)

/-- C2 (code bug): a flag named only in `MapFlags` never reaches a map
branch — `IsMap` tests `ListFlags` (src/utils/tfgen.go:81) and Generate's
second branch re-tests `IsList` (line 121) — and the collected `errs` are
never returned. So the value `broken`, lacking `=`, produces no error and is
rendered as a scalar assignment, and `k=v` is rendered as a scalar line,
not a block. -/
theorem C2_map_flag_falls_through_to_scalar :
    Generate ⟨[], ["labels"], [], [], [], ""⟩ [("labels", "broken")] 0 Except.ok
        = Except.ok "labels = \"broken\""
      ∧ Generate ⟨[], ["labels"], [], [], [], ""⟩ [("labels", "k=v")] 0 Except.ok
        = Except.ok "labels = \"k=v\""
      ∧ (runVisit ⟨[], ["labels"], [], [], [], ""⟩ [("labels", "broken")] 0).errs = [] := by
  refine ⟨rfl, rfl, rfl⟩

/-- C6: Generate assembles `pre ++ body ++ merged(body) ++ post` joined by
newlines, hands the blob to the external structural formatter, returns the
formatter's output on success, and on rejection returns no bytes and the
formatter's message wrapped with "Could not format output: "; no other
validation is performed — in particular the internally collected `errs`
never influence the result, for any flags and any formatter. -/
theorem C6_generate_assembly_and_formatting (c : TerraformFileConfig)
    (flags : List (String × String)) (extraCap : Nat)
    (format : String → Except String String) :
    Generate c flags extraCap format = wrapFormat (format (assembledText c flags extraCap))
      ∧ assembledText c flags extraCap
          = String.intercalate "\n"
              (c.PreLines ++ finalBody c flags extraCap ++ mergedLines c flags extraCap ++ c.PostLines) := by
  constructor
  · unfold Generate wrapFormat assembledText finalBody mergedLines generateState
    rfl
  · rfl

/-- C10 counterexample: body `["b"]` at exact capacity (a Go literal slice
has cap = len), flags `a` then `b` in visit order, with flag `b`'s name a
substring of the body line. The no-match append for `a` reallocates the
working slice, so the later removal for `b` never touches `BodyLines`: the
receiver's body is neither shifted nor given a trailing empty string, and
a second Generate call operates on the unaltered body — refuting the
claim's universally quantified mutation statement. -/
theorem C10_counterexample :
    strContains "b" "b" = true
      ∧ finalBody ⟨[], [], [], ["b"], [], ""⟩ [("a", "x"), ("b", "y")] 0 = ["b"]
      ∧ (finalConfig ⟨[], [], [], ["b"], [], ""⟩ [("a", "x"), ("b", "y")] 0).BodyLines
          = (TerraformFileConfig.mk [] [] [] ["b"] [] "").BodyLines
      ∧ mergedLines ⟨[], [], [], ["b"], [], ""⟩ [("a", "x"), ("b", "y")] 0
          = [scalarLine "a" "x", scalarLine "b" "y"] := by
  refine ⟨rfl, rfl, rfl, rfl⟩

/-- C10 (amended): for any single-scalar-flag invocation in which the
flag's name occurs as a substring of a body line (first match at index
`i`) — a case in which the working list still aliases `BodyLines` when the
removal runs — the in-place removal shifts `c.BodyLines`' subsequent
elements left and leaves an empty string at its last position; the
subsequent in-place append overwrites that slot with the new assignment
line, the assembled output contains the body section twice (the mutated
`BodyLines` followed by the merged lines), and a second Generate call
operates on the altered body. -/
theorem C10_alias_single_flag (lf mf pre body post : List String) (bp : String)
    (extraCap : Nat) (n v : String) (i : Nat)
    (hl : n ∉ lf)
    (hfi : body.findIdx? (fun l => strContains l n) = some i) :
    ((GenState.init body extraCap).removeMatch n).body = body.eraseIdx i ++ [""]
      ∧ finalBody ⟨lf, mf, pre, body, post, bp⟩ [(n, v)] extraCap
          = body.eraseIdx i ++ [scalarLine n v]
      ∧ mergedLines ⟨lf, mf, pre, body, post, bp⟩ [(n, v)] extraCap
          = body.eraseIdx i ++ [scalarLine n v]
      ∧ assembledText ⟨lf, mf, pre, body, post, bp⟩ [(n, v)] extraCap
          = String.intercalate "\n"
              (pre ++ (body.eraseIdx i ++ [scalarLine n v])
                ++ (body.eraseIdx i ++ [scalarLine n v]) ++ post)
      ∧ (finalConfig ⟨lf, mf, pre, body, post, bp⟩ [(n, v)] extraCap).BodyLines
          = body.eraseIdx i ++ [scalarLine n v] := by
  have hi : i < body.length := by
    rcases List.findIdx?_eq_some_iff_getElem.mp hfi with ⟨h, -, -⟩
    exact h
  have hlen_erase : (body.eraseIdx i).length = body.length - 1 :=
    List.length_eraseIdx_of_lt hi
  have hL1 : 1 ≤ body.length := Nat.lt_of_le_of_lt (Nat.zero_le i) hi
  have hlines0 : (GenState.init body extraCap).lines = body := by
    show (body ++ List.replicate extraCap "").take body.length = body
    exact List.take_left' rfl
  have e1 : (GenState.init body extraCap).removeMatch n
      = GenState.mk (body.eraseIdx i ++ "" :: List.replicate extraCap "") body.length
          (.attached (body.length - 1)) := by
    unfold GenState.removeMatch
    rw [hlines0, hfi]
    show GenState.removeAt (GenState.init body extraCap) i = _
    unfold GenState.removeAt GenState.init
    simp only []
    rw [List.take_left' rfl, List.drop_left' rfl, List.append_assoc]
    rfl
  have eA : ((GenState.init body extraCap).removeMatch n).body = body.eraseIdx i ++ [""] := by
    rw [e1]
    show (body.eraseIdx i ++ "" :: List.replicate extraCap "").take body.length = _
    have h4 : body.length = (body.eraseIdx i).length + 1 := by omega
    rw [h4, List.take_append]
    rfl
  have e2 : (GenState.mk (body.eraseIdx i ++ "" :: List.replicate extraCap "") body.length
        (.attached (body.length - 1))).appendL (scalarLine n v)
      = GenState.mk (body.eraseIdx i ++ scalarLine n v :: List.replicate extraCap "")
          body.length (.attached body.length) := by
    have hblen : (body.eraseIdx i ++ "" :: List.replicate extraCap "").length
        = body.length + extraCap := by
      simp only [List.length_append, List.length_cons, List.length_replicate, hlen_erase]
      omega
    have hlt : body.length - 1 < (body.eraseIdx i ++ "" :: List.replicate extraCap "").length := by
      omega
    have h1 : (body.eraseIdx i).length ≤ body.length - 1 := by omega
    have h2 : body.length - 1 - (body.eraseIdx i).length = 0 := by omega
    have h3 : body.length - 1 + 1 = body.length := by omega
    unfold GenState.appendL
    simp only []
    rw [if_pos hlt, List.set_append_right _ _ h1, h2, h3]
    rfl
  have hIsig : (TerraformFileConfig.mk lf mf pre body post bp).IsList n = false :=
    IsList_eq_false_of_not_mem _ n hl
  have ev : visitFlag ⟨lf, mf, pre, body, post, bp⟩ ⟨GenState.init body extraCap, [], [], []⟩ (n, v)
      = ⟨GenState.mk (body.eraseIdx i ++ scalarLine n v :: List.replicate extraCap "")
          body.length (.attached body.length), [], [], []⟩ := by
    simp only [visitFlag, hIsig, Bool.false_eq_true, if_false]
    rw [e1, e2]
  have e3 : generateState ⟨lf, mf, pre, body, post, bp⟩ [(n, v)] extraCap
      = GenState.mk (body.eraseIdx i ++ scalarLine n v :: List.replicate extraCap "")
          body.length (.attached body.length) := by
    unfold generateState runVisit
    rw [List.foldl_cons, List.foldl_nil]
    show List.foldl expandMap
        (List.foldl expandList
          (visitFlag ⟨lf, mf, pre, body, post, bp⟩ ⟨GenState.init body extraCap, [], [], []⟩ (n, v)).s
          (visitFlag ⟨lf, mf, pre, body, post, bp⟩ ⟨GenState.init body extraCap, [], [], []⟩ (n, v)).listValues)
        (visitFlag ⟨lf, mf, pre, body, post, bp⟩ ⟨GenState.init body extraCap, [], [], []⟩ (n, v)).mapValues
      = _
    rw [ev]
    rfl
  have ebody : finalBody ⟨lf, mf, pre, body, post, bp⟩ [(n, v)] extraCap
      = body.eraseIdx i ++ [scalarLine n v] := by
    unfold finalBody
    rw [e3]
    show (body.eraseIdx i ++ scalarLine n v :: List.replicate extraCap "").take body.length = _
    have h4 : body.length = (body.eraseIdx i).length + 1 := by omega
    rw [h4, List.take_append]
    rfl
  have elines : mergedLines ⟨lf, mf, pre, body, post, bp⟩ [(n, v)] extraCap
      = body.eraseIdx i ++ [scalarLine n v] := by
    unfold mergedLines
    rw [e3]
    show (body.eraseIdx i ++ scalarLine n v :: List.replicate extraCap "").take body.length = _
    have h4 : body.length = (body.eraseIdx i).length + 1 := by omega
    rw [h4, List.take_append]
    rfl
  refine ⟨eA, ebody, elines, ?_, ?_⟩
  · unfold assembledText
    rw [ebody, elines]
  · show finalBody ⟨lf, mf, pre, body, post, bp⟩ [(n, v)] extraCap = _
    exact ebody

/-- Witness for the amended C10 at a concrete invocation: body
`["a = 1", "b = 2"]`, flag `a` with value `3` matching the first line. -/
theorem C10_alias_single_flag_witness :
    finalBody ⟨[], [], ["pre"], ["a = 1", "b = 2"], ["post"], ""⟩ [("a", "3")] 0
      = (["a = 1", "b = 2"].eraseIdx 0) ++ [scalarLine "a" "3"] :=
  (C10_alias_single_flag [] [] ["pre"] ["a = 1", "b = 2"] ["post"] "" 0 "a" "3" 0
    (by decide) (by decide)).2.1

/-- C3 counterexample: with arguments `["apply", "--help"]` some argument
contains "help", yet the router does not enter help mode (the source
checks only the first argument, and "apply" is a known terraform command,
so the vector passes through); and with `["foobar"]` no argument contains
"help" and a non-flag argument exists, yet the router does enter help mode
(unrecognized command). Both directions of the claimed "exactly when"
fail. -/
theorem C3_counterexample :
    route [] ["apply", "--help"] = Route.passthrough ["apply", "--help"]
      ∧ strContains "--help" "help" = true
      ∧ route [] ["foobar"] = Route.help
      ∧ strContains "foobar" "help" = false
      ∧ dashLead "foobar" = false := by
  refine ⟨rfl, rfl, rfl, rfl, rfl⟩

/-- C3 (amended): after the reserved wheels meta-commands are intercepted,
the router enters help mode exactly when the argument vector is empty, the
FIRST argument contains the substring "help", no argument lacks a '-'
prefix, or the first non-flag argument matches no plugin-declared command
while no argument equals a known terraform command; help mode renders the
external tool's help when available (otherwise a missing-terraform
notice), then the built-in wheels commands, then every plugin-declared
command with name and description in registration order, and terminates
the process with a non-zero status. -/
theorem C3_help_mode_condition (plugins : List Plugin) (args : List String) (hasTf : Bool) :
    ((route plugins args = Route.help) ↔ helpCond plugins args = true)
      ∧ helpScreen hasTf plugins
          = (if hasTf then [HelpItem.terraformOwnHelp] else [HelpItem.missingTerraformNotice])
            ++ HelpItem.builtinCommand "wheels-version" :: HelpItem.builtinCommand "wheels-upgrade"
              :: pluginHelpItems plugins
      ∧ helpExitCode ≠ 0 := by
  refine ⟨?_, by cases hasTf <;> rfl, by decide⟩
  cases args with
  | nil => simp [route, helpCond]
  | cons a1 rest =>
    by_cases h1 : (a1 == "wheels-complete-upgrade") = true
    · simp [route, helpCond, h1]
    · by_cases h2 : (a1 == "wheels-version") = true
      · simp [route, helpCond, h1, h2]
      · by_cases h3 : (a1 == "wheels-upgrade") = true
        · simp [route, helpCond, h1, h2, h3]
        · by_cases h4 : strContains a1 "help" = true
          · simp [route, helpCond, h1, h2, h3, h4]
          · cases hf : (a1 :: rest).find? (fun a => !(dashLead a)) with
            | none => simp [route, helpCond, h1, h2, h3, h4, hf]
            | some cmdn =>
              cases hp : findPluginCommand plugins cmdn with
              | some pc => simp [route, helpCond, h1, h2, h3, h4, hf, hp]
              | none =>
                by_cases ht : (a1 :: rest).any
                    (fun arg => knownTerraformCommands.any (fun c => c == arg)) = true
                · simp [route, helpCond, h1, h2, h3, h4, hf, hp, ht]
                · simp [route, helpCond, h1, h2, h3, h4, hf, hp, ht]

/-- C4 counterexample: with arguments `["foobar", "apply"]` the effective
command name is "foobar", which is not a member of the known-passthrough
set, yet the full vector is delegated to terraform — the source checks
whether ANY argument equals a known command, not the effective command
name. -/
theorem C4_counterexample :
    route [] ["foobar", "apply"] = Route.passthrough ["foobar", "apply"]
      ∧ ["foobar", "apply"].find? (fun a => !(dashLead a)) = some "foobar"
      ∧ knownTerraformCommands.any (fun c => c == "foobar") = false := by
  refine ⟨rfl, rfl, rfl⟩

/-- C4 (amended): for every argument vector with at least one non-flag
token, whose first argument is neither a reserved wheels meta-command nor
contains "help": the effective command name is the first argument not
prefixed by '-', and when it matches no plugin-declared command, the full
original vector is delegated to the external tool if and only if SOME
argument is a member of the fixed known-passthrough command set; otherwise
the router falls back to help mode. -/
theorem C4_passthrough_condition (plugins : List Plugin) (a1 : String) (rest : List String)
    (cmdn : String)
    (hm1 : (a1 == "wheels-complete-upgrade") = false)
    (hm2 : (a1 == "wheels-version") = false)
    (hm3 : (a1 == "wheels-upgrade") = false)
    (hh : strContains a1 "help" = false)
    (hf : (a1 :: rest).find? (fun a => !(dashLead a)) = some cmdn)
    (hp : findPluginCommand plugins cmdn = none) :
    (route plugins (a1 :: rest) = Route.passthrough (a1 :: rest)
        ↔ (a1 :: rest).any (fun arg => knownTerraformCommands.any (fun c => c == arg)) = true)
      ∧ (route plugins (a1 :: rest) ≠ Route.passthrough (a1 :: rest)
          → route plugins (a1 :: rest) = Route.help) := by
  by_cases ht : (a1 :: rest).any (fun arg => knownTerraformCommands.any (fun c => c == arg)) = true
  · simp [route, hm1, hm2, hm3, hh, hf, hp, ht]
  · simp [route, hm1, hm2, hm3, hh, hf, hp, ht]

/-- Witness for the amended C4 at a concrete vector: `["foobar", "apply"]`
is delegated because "apply" occurs among the arguments. -/
theorem C4_passthrough_condition_witness :
    route [] ["foobar", "apply"] = Route.passthrough ["foobar", "apply"] :=
  (C4_passthrough_condition [] "foobar" ["apply"] "foobar" (by decide) (by decide)
    (by decide) (by decide) (by decide) (by decide)).1.mpr (by decide)

/-- C5 counterexample: a plugin command found at a later position (flags
precede it) is dispatched with `os.Args[2:]` — here `["mycmd", "x"]`,
which still contains the command token — not with the arguments that
follow the command-name token (`["x"]`). -/
theorem C5_counterexample :
    route [Plugin.mk "p1" [Command.mk "mycmd" "demo"]] ["-v", "mycmd", "x"]
        = Route.plugin "p1" "mycmd" ["mycmd", "x"]
      ∧ (["mycmd", "x"] : List String) ≠ ["x"] := by
  refine ⟨rfl, by decide⟩

/-- C5 (amended): when the effective command name (first non-flag
argument) equals a plugin-declared command name — exact string equality,
first match across plugins in registration order — that command's handler
is invoked with `os.Args[2:]`, i.e. every argument after the first one;
this coincides with the arguments following the command-name token exactly
when the command token is the first argument (in which case the effective
name is that first argument). -/
theorem C5_plugin_dispatch_args (plugins : List Plugin) (a1 : String) (rest : List String)
    (cmdn p c : String)
    (hm1 : (a1 == "wheels-complete-upgrade") = false)
    (hm2 : (a1 == "wheels-version") = false)
    (hm3 : (a1 == "wheels-upgrade") = false)
    (hh : strContains a1 "help" = false)
    (hf : (a1 :: rest).find? (fun a => !(dashLead a)) = some cmdn)
    (hp : findPluginCommand plugins cmdn = some (p, c)) :
    route plugins (a1 :: rest) = Route.plugin p c rest
      ∧ (dashLead a1 = false → a1 = cmdn) := by
  constructor
  · simp [route, hm1, hm2, hm3, hh, hf, hp]
  · intro hd
    rw [List.find?_cons_of_pos _ (by simp [hd])] at hf
    exact (Option.some.injEq _ _).mp hf

/-- Witness for the amended C5 at a concrete vector: a flag precedes the
plugin command `mycmd`, and the handler receives `["mycmd", "x"]`. -/
theorem C5_plugin_dispatch_args_witness :
    route [Plugin.mk "p1" [Command.mk "mycmd" "demo"]] ["-v", "mycmd", "x"]
      = Route.plugin "p1" "mycmd" ["mycmd", "x"] :=
  (C5_plugin_dispatch_args [Plugin.mk "p1" [Command.mk "mycmd" "demo"]] "-v" ["mycmd", "x"]
    "mycmd" "p1" "mycmd" (by decide) (by decide) (by decide) (by decide) (by decide)
    (by decide)).1

theorem runBeforeHooks_ok_then_fail (preOk : List (String × Option String))
    (name msg : String) (ae : Option String) (rest : List PluginRun) :
    runBeforeHooks (preOk.map (fun q => PluginRun.mk q.1 none q.2)
        ++ PluginRun.mk name (some msg) ae :: rest)
      = (preOk.map (fun q => Event.beforeRun q.1)
          ++ [Event.beforeRun name, Event.fatal ("Could not start " ++ name ++ ": " ++ msg)],
         false) := by
  induction preOk with
  | nil => rfl
  | cons q qs ih =>
    simp [runBeforeHooks, ih]

/-- C7: if any plugin's BeforeRun returns an error during a lifecycle run
(the plugins before it succeeding), the run ends with a fatal error naming
that plugin, terraform is never invoked for that run, and no plugin's
AfterRun ever runs — including the plugins ordered before the failing
one. -/
theorem C7_prehook_failure_aborts (preOk : List (String × Option String))
    (name msg : String) (ae : Option String) (rest : List PluginRun)
    (invokeErr : Option String) (args : List String) :
    invokeTerraformTrace (preOk.map (fun q => PluginRun.mk q.1 none q.2)
        ++ PluginRun.mk name (some msg) ae :: rest) invokeErr args
        = preOk.map (fun q => Event.beforeRun q.1)
          ++ [Event.beforeRun name, Event.fatal ("Could not start " ++ name ++ ": " ++ msg)]
      ∧ (invokeTerraformTrace (preOk.map (fun q => PluginRun.mk q.1 none q.2)
          ++ PluginRun.mk name (some msg) ae :: rest) invokeErr args).all
            (fun e => !(e.isTfInvoke)) = true
      ∧ (invokeTerraformTrace (preOk.map (fun q => PluginRun.mk q.1 none q.2)
          ++ PluginRun.mk name (some msg) ae :: rest) invokeErr args).all
            (fun e => !(e.isAfterRun)) = true := by
  have hb := runBeforeHooks_ok_then_fail preOk name msg ae rest
  have htr : invokeTerraformTrace (preOk.map (fun q => PluginRun.mk q.1 none q.2)
      ++ PluginRun.mk name (some msg) ae :: rest) invokeErr args
      = preOk.map (fun q => Event.beforeRun q.1)
        ++ [Event.beforeRun name, Event.fatal ("Could not start " ++ name ++ ": " ++ msg)] := by
    simp [invokeTerraformTrace, hb]
  refine ⟨htr, ?_, ?_⟩
  · rw [htr, List.all_append]
    have h1 : (preOk.map (fun q => Event.beforeRun q.1)).all (fun e => !(e.isTfInvoke)) = true :=
      List.all_eq_true.mpr (fun e he => by rcases List.mem_map.mp he with ⟨q, -, rfl⟩; rfl)
    rw [h1]
    rfl
  · rw [htr, List.all_append]
    have h1 : (preOk.map (fun q => Event.beforeRun q.1)).all (fun e => !(e.isAfterRun)) = true :=
      List.all_eq_true.mpr (fun e he => by rcases List.mem_map.mp he with ⟨q, -, rfl⟩; rfl)
    rw [h1]
    rfl

/-- C8 (code bug): when a post-hook fails, src/main.go:108 formats
`err.Error()` — the delegation error — instead of the post-hook's error
`perr`. With a successful delegation (`err` nil) the call is a
nil-interface method call and the process panics with no descriptive
message at all; with a failed delegation the fatal message carries the
delegation error's text ("tferr") and omits the post-hook error's
description ("boom"). -/
theorem C8_posthook_error_mishandled :
    invokeTerraformTrace [PluginRun.mk "p" none (some "boom")] none ["apply"]
        = [Event.beforeRun "p", Event.tfInvoke ["apply"], Event.afterRun "p", Event.crashed]
      ∧ invokeTerraformTrace [PluginRun.mk "p" none (some "boom")] (some "tferr") ["apply"]
        = [Event.beforeRun "p", Event.tfInvoke ["apply"], Event.afterRun "p",
            Event.fatal "Could not finalize p: tferr"]
      ∧ strContains "Could not finalize p: tferr" "boom" = false := by
  refine ⟨rfl, rfl, rfl⟩

theorem runBeforeHooks_no_reload (ps : List PluginRun) :
    (runBeforeHooks ps).1.filter Event.isReload = [] := by
  induction ps with
  | nil => rfl
  | cons p ps ih =>
    rcases p with ⟨pn, pb, pa⟩
    cases pb with
    | some e => simp [runBeforeHooks, fatalStop, Event.isReload]
    | none => simp [runBeforeHooks, Event.isReload, ih]

theorem runAfterHooks_no_reload (invokeErr : Option String) (ps : List PluginRun) :
    (runAfterHooks invokeErr ps).filter Event.isReload = [] := by
  induction ps with
  | nil => rfl
  | cons p ps ih =>
    rcases p with ⟨pn, pb, pa⟩
    cases pa with
    | some e =>
      cases invokeErr with
      | some ie => simp [runAfterHooks, fatalStop, Event.isReload]
      | none => simp [runAfterHooks, Event.isReload]
    | none => simp [runAfterHooks, Event.isReload, ih]

theorem invokeTerraformTrace_no_reload (plugins : List PluginRun) (invokeErr : Option String)
    (args : List String) :
    (invokeTerraformTrace plugins invokeErr args).filter Event.isReload = [] := by
  by_cases hok : (runBeforeHooks plugins).2 = true
  · simp [invokeTerraformTrace, hok, List.filter_append, runBeforeHooks_no_reload,
      runAfterHooks_no_reload, Event.isReload]
  · simp only [Bool.not_eq_true] at hok
    simp [invokeTerraformTrace, hok, runBeforeHooks_no_reload]

/-- C9: starting from a sandbox reporting no provisioning files, a
successful plugin-command dispatch after which the sandbox reports files
triggers exactly one automatic delegation of the synthetic `["init"]`
vector through the full plugin lifecycle, after reloading the sandbox
project state; and the transition does not trigger when provisioning files
were already present at the start of the invocation, nor when the sandbox
still reports no files. -/
theorem C9_first_scaffold_auto_init (filesAfter : Bool) (active : List PluginRun)
    (initErr : Option String) :
    pluginDispatchTrace false true none active initErr
        = Event.handleCmd :: Event.reloadProject :: invokeTerraformTrace active initErr ["init"]
      ∧ ((pluginDispatchTrace false true none active initErr).filter Event.isReload).length = 1
      ∧ pluginDispatchTrace true filesAfter none active initErr = [Event.handleCmd]
      ∧ ((pluginDispatchTrace true filesAfter none active initErr).filter Event.isReload).length = 0
      ∧ pluginDispatchTrace false false none active initErr = [Event.handleCmd] := by
  refine ⟨rfl, ?_, rfl, rfl, rfl⟩
  show ((Event.handleCmd :: Event.reloadProject
      :: invokeTerraformTrace active initErr ["init"]).filter Event.isReload).length = 1
  simp [Event.isReload, invokeTerraformTrace_no_reload]

/-- Witness applying the amended C3 at a concrete input: `["--help"]`
routes to help mode and satisfies the amended condition. -/
theorem C3_help_mode_condition_witness :
    (route [] ["--help"] = Route.help) ↔ helpCond [] ["--help"] = true :=
  (C3_help_mode_condition [] ["--help"] true).1
